import Mathlib

/-!
Shallow embedding of `toolkit/devtools/security/LocalCertService.cpp`:
a local self-signed certificate lifecycle manager.

Modelling conventions:
* `PRTime` (microseconds since epoch) is `Int`.
* `nsresult` is the inductive `Nsresult`; every NSS-mapped error
  (`GetXPCOMFromNSSError` / `MapSECStatus`) is `nssError code`.
* The certificate store is a `List Cert`; `PK11_FindCertFromNickname` and
  `nsIX509CertDB::FindCertByNickname` both return the first certificate in
  the list whose nickname matches (`findCert`).
* The opaque crypto-provider steps of `Generate` (slot acquisition, key
  generation, signing, ...) succeed or fail according to a `CryptoEnv`
  record of outcome flags; the random serial is `CryptoEnv.serial`.
* Deleting a certificate (`PK11_DeleteTokenCertAndKey`) succeeds in this
  model; a task runs sequentially at a single evaluation time `now`.
-/

namespace LocalCertService

/-- PRTime: microseconds since the epoch. -/
abbrev PRTime := Int

/-- `oneDay` of `LocalCertGetTask`: `PR_USEC_PER_SEC * 60 * 60 * 24`. -/
def oneDay : PRTime := 1000000 * 60 * 60 * 24

/-- The `nsresult` codes this translation unit can produce.  `nssError c`
stands for an (opaque, always failing) NSS-mapped error. -/
inductive Nsresult where
  | NS_OK
  | NS_ERROR_FAILURE
  | NS_ERROR_UNEXPECTED
  | NS_ERROR_INVALID_ARG
  | NS_ERROR_INVALID_POINTER
  | nssError (code : Nat)
deriving DecidableEq, Repr

/-- `NS_FAILED(rv)`: every code except `NS_OK` is a failure. -/
def Nsresult.failed : Nsresult → Bool
  | .NS_OK => false
  | _ => true

/-- The fields of a stored certificate this core reads
(`CERTCertificate` / `nsIX509Cert`). `serial` keeps distinct
generations distinguishable. -/
structure Cert where
  nickname : String
  subjectName : String
  issuerName : String
  isSelfSigned : Bool
  notBefore : PRTime
  notAfter : PRTime
  serial : Nat
deriving DecidableEq, Repr

/-- Store lookup predicate: exact nickname match. -/
def matchesNickname (n : String) (c : Cert) : Bool :=
  c.nickname == n

/-- `PK11_FindCertFromNickname` / `FindCertByNickname`: the first
certificate in the store with the given nickname. -/
def findCert (n : String) (store : List Cert) : Option Cert :=
  store.find? (matchesNickname n)

/-- Number of certificates in the store matching the nickname. -/
def countMatching (n : String) (store : List Cert) : Nat :=
  (store.filter (matchesNickname n)).length

/-- The guard of `LocalCertTask::RemoveExisting`: a certificate is
recognized as generated by this service iff it is self-signed and its
subject and issuer both equal `"CN=" + nickname`. -/
def isOwnCert (n : String) (c : Cert) : Bool :=
  c.isSelfSigned && ("CN=" ++ n) == c.subjectName && ("CN=" ++ n) == c.issuerName

/-- `LocalCertTask::RemoveExisting`, structurally: repeatedly find a
certificate with the nickname; if none, `NS_OK`; if it is not self-signed
or subject/issuer differ from `"CN=" + nickname`, `NS_ERROR_UNEXPECTED`
(store untouched from that point); otherwise delete it and loop.  Since
`findCert` returns the first match and certificates before it do not
match, the loop is equivalent to this left-to-right scan (proved against
the literal find/erase loop in `RemoveExistingLoop_eq`). -/
def RemoveExisting (n : String) : List Cert → Nsresult × List Cert
  | [] => (.NS_OK, [])
  | c :: rest =>
    if matchesNickname n c then
      if !c.isSelfSigned then (.NS_ERROR_UNEXPECTED, c :: rest)
      else if ("CN=" ++ n) ≠ c.subjectName then (.NS_ERROR_UNEXPECTED, c :: rest)
      else if ("CN=" ++ n) ≠ c.issuerName then (.NS_ERROR_UNEXPECTED, c :: rest)
      else RemoveExisting n rest
    else
      let r := RemoveExisting n rest
      (r.1, c :: r.2)

/-- The literal find-first/delete loop of `LocalCertTask::RemoveExisting`:
each iteration searches the whole store again and deletes exactly the
certificate it found (the first nickname match). -/
def RemoveExistingLoop (n : String) (store : List Cert) : Nsresult × List Cert :=
  match h : findCert n store with
  | none => (.NS_OK, store)
  | some c =>
    if !c.isSelfSigned then (.NS_ERROR_UNEXPECTED, store)
    else if ("CN=" ++ n) ≠ c.subjectName then (.NS_ERROR_UNEXPECTED, store)
    else if ("CN=" ++ n) ≠ c.issuerName then (.NS_ERROR_UNEXPECTED, store)
    else RemoveExistingLoop n (store.eraseP (matchesNickname n))
termination_by store.length
decreasing_by
  have hmem := List.mem_of_find?_eq_some h
  have hp := List.find?_some h
  have := List.length_eraseP_of_mem hmem hp
  simp only [this]
  exact Nat.sub_lt (List.length_pos.mpr (List.ne_nil_of_mem hmem)) Nat.one_pos

/-- Outcomes of the opaque crypto-provider / NSS steps inside
`LocalCertGetTask::Generate`, in source order.  `serial` is the random
serial drawn in the successful case; `nssCode` indexes the opaque
NSS-mapped error of whichever step fails first. -/
structure CryptoEnv where
  slotOk : Bool              -- PK11_GetInternalKeySlot
  subjectNameOk : Bool       -- CERT_AsciiToName
  curveOk : Bool             -- SECOID_FindOIDByTag
  keyGenOk : Bool            -- PK11_GenerateKeyPair
  spkiOk : Bool              -- SECKEY_CreateSubjectPublicKeyInfo
  requestOk : Bool           -- CERT_CreateCertificateRequest
  validityOk : Bool          -- CERT_CreateValidity
  randomOk : Bool            -- PK11_GenerateRandomOnSlot
  createCertOk : Bool        -- CERT_CreateCertificate
  versionDataOk : Bool       -- cert->version.data non-null
  arenaOk : Bool             -- cert->arena non-null
  setAlgOk : Bool            -- SECOID_SetAlgorithmID
  encodeOk : Bool            -- SEC_ASN1EncodeItem
  signOk : Bool              -- SEC_DerSignData
  tempCertOk : Bool          -- CERT_NewTempCertificate
  importOk : Bool            -- PK11_ImportCert
  serial : Nat
  nssCode : Nat

/-- A `CryptoEnv` in which every provider step succeeds. -/
def allOkEnv : CryptoEnv :=
  ⟨true, true, true, true, true, true, true, true,
   true, true, true, true, true, true, true, true, 0, 0⟩

/-- The certificate `Generate` builds and imports under nickname `n` at
time `now`: self-signed, subject and issuer `"CN=" + n`, valid from one
day before `now` to 365 days after. -/
def freshCert (n : String) (now : PRTime) (serial : Nat) : Cert :=
  { nickname := n
    subjectName := "CN=" ++ n
    issuerName := "CN=" ++ n
    isSelfSigned := true
    notBefore := now - oneDay
    notAfter := now + 365 * oneDay
    serial := serial }

/-- `LocalCertGetTask::GetFromDB`: look the nickname up in the cert DB;
on success the found certificate becomes `mCert`, otherwise the lookup
fails and `mCert` is not assigned. -/
def GetFromDB (n : String) (store : List Cert) : Nsresult × Option Cert :=
  match findCert n store with
  | some c => (.NS_OK, some c)
  | none => (.NS_ERROR_FAILURE, none)

/-- `LocalCertGetTask::Validate`: self-signed, subject = issuer,
subject = `"CN=" + nickname`, and `notBefore <= now` and
`notAfter >= now - oneDay`; every failing check returns
`NS_ERROR_FAILURE`. -/
def Validate (n : String) (now : PRTime) (c : Cert) : Nsresult :=
  if !c.isSelfSigned then .NS_ERROR_FAILURE
  else if c.subjectName ≠ c.issuerName then .NS_ERROR_FAILURE
  else if c.subjectName ≠ ("CN=" ++ n) then .NS_ERROR_FAILURE
  else if c.notBefore > now ∨ c.notAfter < now - oneDay then .NS_ERROR_FAILURE
  else .NS_OK

/-- `LocalCertGetTask::Generate`: acquire the key slot, purge existing
certificates with the nickname (`RemoveExisting`), run the generation
steps (each can fail per `env`), import the new certificate, and re-read
it from the store (`GetFromDB`).  Returns (result, store, `mCert`);
`mCert` is updated only by the final successful re-read. -/
def Generate (env : CryptoEnv) (n : String) (now : PRTime)
    (store : List Cert) (mCert : Option Cert) : Nsresult × List Cert × Option Cert :=
  if !env.slotOk then (.nssError env.nssCode, store, mCert)
  else
    let r := RemoveExisting n store
    if r.1.failed then (r.1, r.2, mCert)
    else
      let store1 := r.2
      if !env.subjectNameOk then (.nssError env.nssCode, store1, mCert)
      else if !env.curveOk then (.nssError env.nssCode, store1, mCert)
      else if !env.keyGenOk then (.nssError env.nssCode, store1, mCert)
      else if !env.spkiOk then (.nssError env.nssCode, store1, mCert)
      else if !env.requestOk then (.nssError env.nssCode, store1, mCert)
      else if !env.validityOk then (.nssError env.nssCode, store1, mCert)
      else if !env.randomOk then (.nssError env.nssCode, store1, mCert)
      else if !env.createCertOk then (.nssError env.nssCode, store1, mCert)
      else if !env.versionDataOk then (.NS_ERROR_INVALID_POINTER, store1, mCert)
      else if !env.arenaOk then (.NS_ERROR_INVALID_POINTER, store1, mCert)
      else if !env.setAlgOk then (.nssError env.nssCode, store1, mCert)
      else if !env.encodeOk then (.nssError env.nssCode, store1, mCert)
      else if !env.signOk then (.nssError env.nssCode, store1, mCert)
      else if !env.tempCertOk then (.nssError env.nssCode, store1, mCert)
      else if !env.importOk then (.nssError env.nssCode, store1, mCert)
      else
        let store2 := store1 ++ [freshCert n now env.serial]
        match GetFromDB n store2 with
        | (rv, some c) => (rv, store2, some c)
        | (rv, none) => (rv, store2, mCert)

/-- The state a `LocalCertGetTask` run ends in: final `nsresult`, final
store contents, final `mCert`, and how many times `Generate` ran. -/
structure TaskState where
  rv : Nsresult
  store : List Cert
  mCert : Option Cert
  genCount : Nat
deriving DecidableEq, Repr

/-- Validation applied to the task's `mCert` member.  On every path of
`CalculateResult` that reaches `Validate`, `mCert` is set; the `none`
branch is unreachable there. -/
def ValidateOpt (n : String) (now : PRTime) : Option Cert → Nsresult
  | some c => Validate n now c
  | none => .NS_ERROR_FAILURE

/-- `LocalCertGetTask::CalculateResult`: try `GetFromDB`; on failure
`Generate`; if that failed, give up; then `Validate`; on failure
`Generate`; if that failed, give up; else `NS_OK`.  `env i` supplies the
provider outcomes of the (i+1)-th `Generate` invocation. -/
def CalculateResult (env : Nat → CryptoEnv) (n : String) (now : PRTime)
    (store : List Cert) : TaskState :=
  let g := GetFromDB n store
  let st1 : TaskState :=
    if g.1.failed then
      let r := Generate (env 0) n now store none
      ⟨r.1, r.2.1, r.2.2, 1⟩
    else ⟨g.1, store, g.2, 0⟩
  if st1.rv.failed then st1
  else
    let rvV := ValidateOpt n now st1.mCert
    if rvV.failed then
      let r := Generate (env st1.genCount) n now st1.store st1.mCert
      ⟨r.1, r.2.1, r.2.2, st1.genCount + 1⟩
    else ⟨.NS_OK, st1.store, st1.mCert, st1.genCount⟩

/-- What the synchronous entry points (`GetOrCreateCert` / `RemoveCert`)
observably do before returning: the returned `nsresult`, whether/with
what status the callback was invoked synchronously, whether a task was
dispatched, and whether `LoginToKeySlot` was reached. -/
structure SyncResult where
  ret : Nsresult
  callbackStatus : Option Nsresult
  taskDispatched : Bool
  loginAttempted : Bool
deriving DecidableEq, Repr

/-- `LocalCertService::GetOrCreateCert`: reject an empty nickname
(`NS_ERROR_INVALID_ARG`) or a null callback (`NS_ERROR_INVALID_POINTER`)
before anything else; then `LoginToKeySlot` (outcome `loginResult`); on
login failure invoke the callback synchronously with that failure and
return `NS_OK`; otherwise dispatch the task (returning `Dispatch`'s
result `dispatchResult`). -/
def GetOrCreateCert (nickname : String) (callbackNull : Bool)
    (loginResult : Nsresult) (dispatchResult : Nsresult) : SyncResult :=
  if nickname.isEmpty then ⟨.NS_ERROR_INVALID_ARG, none, false, false⟩
  else if callbackNull then ⟨.NS_ERROR_INVALID_POINTER, none, false, false⟩
  else if loginResult.failed then ⟨.NS_OK, some loginResult, false, true⟩
  else ⟨dispatchResult, none, true, true⟩

/-- `LocalCertService::RemoveCert`: same synchronous shape as
`GetOrCreateCert`, dispatching a `LocalCertRemoveTask`. -/
def RemoveCert (nickname : String) (callbackNull : Bool)
    (loginResult : Nsresult) (dispatchResult : Nsresult) : SyncResult :=
  if nickname.isEmpty then ⟨.NS_ERROR_INVALID_ARG, none, false, false⟩
  else if callbackNull then ⟨.NS_ERROR_INVALID_POINTER, none, false, false⟩
  else if loginResult.failed then ⟨.NS_OK, some loginResult, false, true⟩
  else ⟨dispatchResult, none, true, true⟩

/-- One sequentially executed task on nickname `n`: either a
`LocalCertGetTask` (with its provider outcomes and evaluation time) or a
`LocalCertRemoveTask`. -/
inductive LocalOp where
  | getOrCreate (env : Nat → CryptoEnv) (now : PRTime)
  | remove

/-- Effect of one task on the store. -/
def runOp (n : String) (store : List Cert) : LocalOp → List Cert
  | .getOrCreate env now => (CalculateResult env n now store).store
  | .remove => (RemoveExisting n store).2

/-- Effect of a finite sequence of tasks on the store, run left to
right. -/
def runOps (n : String) : List LocalOp → List Cert → List Cert
  | [], store => store
  | op :: ops, store => runOps n ops (runOp n store op)

/-! ## Basic lemmas -/

theorem Nsresult.failed_iff {rv : Nsresult} : rv.failed = true ↔ rv ≠ .NS_OK := by
  cases rv <;> simp [Nsresult.failed]

theorem Nsresult.not_failed_iff {rv : Nsresult} : rv.failed = false ↔ rv = .NS_OK := by
  cases rv <;> simp [Nsresult.failed]

@[simp] theorem Nsresult.failed_ok : Nsresult.NS_OK.failed = false := rfl

@[simp] theorem Nsresult.failed_failure : Nsresult.NS_ERROR_FAILURE.failed = true := rfl

@[simp] theorem Nsresult.failed_unexpected : Nsresult.NS_ERROR_UNEXPECTED.failed = true := rfl

@[simp] theorem Nsresult.failed_invalid_arg : Nsresult.NS_ERROR_INVALID_ARG.failed = true := rfl

@[simp] theorem Nsresult.failed_invalid_ptr : Nsresult.NS_ERROR_INVALID_POINTER.failed = true := rfl

@[simp] theorem Nsresult.failed_nssError (c : Nat) : (Nsresult.nssError c).failed = true := rfl

theorem findCert_nil (n : String) : findCert n [] = none := rfl

theorem findCert_cons_of_match {n : String} {c : Cert} (rest : List Cert)
    (h : matchesNickname n c = true) : findCert n (c :: rest) = some c := by
  simp [findCert, List.find?_cons_of_pos, h]

theorem findCert_cons_of_nomatch {n : String} {c : Cert} (rest : List Cert)
    (h : matchesNickname n c = false) : findCert n (c :: rest) = findCert n rest := by
  simp [findCert, List.find?_cons_of_neg, h]

theorem findCert_append_of_none {n : String} {l₁ : List Cert} (l₂ : List Cert)
    (h : findCert n l₁ = none) : findCert n (l₁ ++ l₂) = findCert n l₂ := by
  unfold findCert at h ⊢
  rw [List.find?_append, h, Option.none_or]

theorem matchesNickname_freshCert (n : String) (now : PRTime) (s : Nat) :
    matchesNickname n (freshCert n now s) = true := by
  simp [matchesNickname, freshCert]

theorem countMatching_nil (n : String) : countMatching n [] = 0 := rfl

theorem countMatching_eq_zero_iff {n : String} {store : List Cert} :
    countMatching n store = 0 ↔ findCert n store = none := by
  simp [countMatching, findCert, List.length_eq_zero, List.filter_eq_nil_iff,
    List.find?_eq_none]

theorem countMatching_cons_of_match {n : String} {c : Cert} (rest : List Cert)
    (h : matchesNickname n c = true) :
    countMatching n (c :: rest) = countMatching n rest + 1 := by
  simp [countMatching, List.filter_cons, h]

theorem countMatching_cons_of_nomatch {n : String} {c : Cert} (rest : List Cert)
    (h : matchesNickname n c = false) :
    countMatching n (c :: rest) = countMatching n rest := by
  simp [countMatching, List.filter_cons, h]

/-! ## RemoveExisting lemmas -/

theorem RemoveExisting_nil (n : String) : RemoveExisting n [] = (.NS_OK, []) := rfl

/-- A matching certificate recognized as our own is deleted and the scan
continues. -/
theorem RemoveExisting_cons_own {n : String} {c : Cert} (rest : List Cert)
    (hm : matchesNickname n c = true) (hown : isOwnCert n c = true) :
    RemoveExisting n (c :: rest) = RemoveExisting n rest := by
  simp only [isOwnCert, Bool.and_eq_true, beq_iff_eq] at hown
  obtain ⟨⟨h1, h2⟩, h3⟩ := hown
  simp only [RemoveExisting, hm, if_true, h1, Bool.not_true, Bool.false_eq_true,
    if_false]
  rw [if_neg (fun hne => hne h2), if_neg (fun hne => hne h3)]

/-- A matching certificate that is not ours aborts the purge with
`NS_ERROR_UNEXPECTED`, leaving the remaining store untouched. -/
theorem RemoveExisting_cons_foreign {n : String} {c : Cert} (rest : List Cert)
    (hm : matchesNickname n c = true) (hforeign : isOwnCert n c = false) :
    RemoveExisting n (c :: rest) = (.NS_ERROR_UNEXPECTED, c :: rest) := by
  cases h1 : c.isSelfSigned with
  | false =>
    simp [RemoveExisting, hm, h1]
  | true =>
    by_cases h2 : ("CN=" ++ n) = c.subjectName
    · by_cases h3 : ("CN=" ++ n) = c.issuerName
      · exfalso
        rw [isOwnCert, h1, ← h2, ← h3] at hforeign
        simp at hforeign
      · simp only [RemoveExisting, hm, if_true, h1, Bool.not_true,
          Bool.false_eq_true, if_false]
        rw [if_neg (fun hne => hne h2), if_pos h3]
    · simp only [RemoveExisting, hm, if_true, h1, Bool.not_true,
        Bool.false_eq_true, if_false]
      rw [if_pos h2]

/-- A non-matching certificate is skipped by the purge. -/
theorem RemoveExisting_cons_nomatch {n : String} {c : Cert} (rest : List Cert)
    (hm : matchesNickname n c = false) :
    RemoveExisting n (c :: rest) =
      ((RemoveExisting n rest).1, c :: (RemoveExisting n rest).2) := by
  simp [RemoveExisting, hm]

/-- When no certificate matches, the purge is a no-op returning `NS_OK`
(removal is idempotent on an absent nickname). -/
theorem RemoveExisting_of_findCert_none {n : String} {store : List Cert}
    (h : findCert n store = none) : RemoveExisting n store = (.NS_OK, store) := by
  induction store with
  | nil => rfl
  | cons c rest ih =>
    by_cases hm : matchesNickname n c
    · rw [findCert_cons_of_match rest hm] at h
      exact absurd h (by simp)
    · have hm' : matchesNickname n c = false := Bool.eq_false_iff.mpr hm
      rw [findCert_cons_of_nomatch rest hm'] at h
      rw [RemoveExisting_cons_nomatch rest hm', ih h]

/-- When the first matching certificate is foreign, the purge fails with
`NS_ERROR_UNEXPECTED` and the store is unchanged. -/
theorem RemoveExisting_of_findCert_foreign {n : String} {store : List Cert}
    {c : Cert} (hf : findCert n store = some c) (hforeign : isOwnCert n c = false) :
    RemoveExisting n store = (.NS_ERROR_UNEXPECTED, store) := by
  induction store with
  | nil => exact absurd hf (by simp [findCert])
  | cons a rest ih =>
    by_cases hma : matchesNickname n a
    · rw [findCert_cons_of_match rest hma] at hf
      injection hf with hf
      subst hf
      exact RemoveExisting_cons_foreign rest hma hforeign
    · have hma' : matchesNickname n a = false := Bool.eq_false_iff.mpr hma
      rw [findCert_cons_of_nomatch rest hma'] at hf
      rw [RemoveExisting_cons_nomatch rest hma', ih hf]

/-- When the first matching certificate is ours, deleting it (the first
match) and continuing the loop computes the same purge. -/
theorem RemoveExisting_of_findCert_own {n : String} {store : List Cert}
    {c : Cert} (hf : findCert n store = some c) (hown : isOwnCert n c = true) :
    RemoveExisting n store = RemoveExisting n (store.eraseP (matchesNickname n)) := by
  induction store with
  | nil => exact absurd hf (by simp [findCert])
  | cons a rest ih =>
    by_cases hma : matchesNickname n a
    · rw [findCert_cons_of_match rest hma] at hf
      injection hf with hf
      subst hf
      rw [List.eraseP_cons_of_pos hma, RemoveExisting_cons_own rest hma hown]
    · have hma' : matchesNickname n a = false := Bool.eq_false_iff.mpr hma
      rw [findCert_cons_of_nomatch rest hma'] at hf
      rw [List.eraseP_cons_of_neg hma, RemoveExisting_cons_nomatch rest hma',
        RemoveExisting_cons_nomatch (rest.eraseP (matchesNickname n)) hma', ih hf]

/-- A successful purge leaves no certificate matching the nickname. -/
theorem RemoveExisting_ok_findCert {n : String} {store : List Cert}
    (h : (RemoveExisting n store).1 = .NS_OK) :
    findCert n (RemoveExisting n store).2 = none := by
  induction store with
  | nil => rfl
  | cons c rest ih =>
    by_cases hm : matchesNickname n c
    · by_cases hown : isOwnCert n c
      · rw [RemoveExisting_cons_own rest hm hown] at h ⊢
        exact ih h
      · rw [RemoveExisting_cons_foreign rest hm (Bool.eq_false_iff.mpr hown)] at h
        exact absurd h (by simp)
    · have hm' : matchesNickname n c = false := Bool.eq_false_iff.mpr hm
      rw [RemoveExisting_cons_nomatch rest hm'] at h ⊢
      rw [findCert_cons_of_nomatch _ hm']
      exact ih h

/-- The purge never increases the number of certificates matching the
nickname. -/
theorem countMatching_RemoveExisting_le (n : String) (store : List Cert) :
    countMatching n (RemoveExisting n store).2 ≤ countMatching n store := by
  induction store with
  | nil => exact Nat.le_refl _
  | cons c rest ih =>
    by_cases hm : matchesNickname n c
    · by_cases hown : isOwnCert n c
      · rw [RemoveExisting_cons_own rest hm hown, countMatching_cons_of_match rest hm]
        exact Nat.le_succ_of_le ih
      · rw [RemoveExisting_cons_foreign rest hm (Bool.eq_false_iff.mpr hown)]
    · have hm' : matchesNickname n c = false := Bool.eq_false_iff.mpr hm
      rw [RemoveExisting_cons_nomatch rest hm',
        countMatching_cons_of_nomatch rest hm', countMatching_cons_of_nomatch _ hm']
      exact ih

/-- The purge refuses to delete a foreign certificate: if some certificate
matching the nickname is not recognized as ours, the purge fails with
`NS_ERROR_UNEXPECTED` and that certificate is still in the store. -/
theorem RemoveExisting_foreign {n : String} {store : List Cert} {c : Cert}
    (hmem : c ∈ store) (hnick : matchesNickname n c = true)
    (hforeign : isOwnCert n c = false) :
    (RemoveExisting n store).1 = .NS_ERROR_UNEXPECTED ∧
      c ∈ (RemoveExisting n store).2 := by
  induction store with
  | nil => cases hmem
  | cons a rest ih =>
    by_cases hma : matchesNickname n a
    · by_cases hown : isOwnCert n a
      · rw [RemoveExisting_cons_own rest hma hown]
        rcases List.mem_cons.mp hmem with hac | hmem'
        · exfalso
          rw [hac] at hforeign
          rw [hforeign] at hown
          exact Bool.noConfusion hown
        · exact ih hmem'
      · rw [RemoveExisting_cons_foreign rest hma (Bool.eq_false_iff.mpr hown)]
        exact ⟨rfl, hmem⟩
    · rcases List.mem_cons.mp hmem with hac | hmem'
      · exfalso
        rw [hac] at hnick
        rw [hnick] at hma
        exact hma rfl
      · have hma' : matchesNickname n a = false := Bool.eq_false_iff.mpr hma
        rw [RemoveExisting_cons_nomatch rest hma']
        obtain ⟨h1, h2⟩ := ih hmem'
        exact ⟨h1, List.mem_cons_of_mem a h2⟩

/-- The literal find-first/delete loop computes exactly the structural
left-to-right purge: the two translations of
`LocalCertTask::RemoveExisting` agree. -/
theorem RemoveExistingLoop_eq (n : String) (store : List Cert) :
    RemoveExistingLoop n store = RemoveExisting n store := by
  have H : ∀ (k : Nat) (s : List Cert), s.length ≤ k →
      RemoveExistingLoop n s = RemoveExisting n s := by
    intro k
    induction k with
    | zero =>
      intro s hle
      have hnil : s = [] := List.length_eq_zero.mp (Nat.le_zero.mp hle)
      subst hnil
      rw [RemoveExistingLoop.eq_def]
      rfl
    | succ k ih =>
      intro s hle
      rw [RemoveExistingLoop.eq_def]
      split
      next hf => rw [RemoveExisting_of_findCert_none hf]
      next c hf =>
        have hp : matchesNickname n c = true := List.find?_some hf
        have hmem : c ∈ s := List.mem_of_find?_eq_some hf
        by_cases h1 : c.isSelfSigned
        · by_cases h2 : ("CN=" ++ n) = c.subjectName
          · by_cases h3 : ("CN=" ++ n) = c.issuerName
            · rw [if_neg (by simp [h1]), if_neg (fun hne => hne h2),
                if_neg (fun hne => hne h3)]
              have hown : isOwnCert n c = true := by
                rw [isOwnCert, h1, ← h2, ← h3]
                simp
              have hlen : (s.eraseP (matchesNickname n)).length ≤ k := by
                rw [List.length_eraseP_of_mem hmem hp]
                omega
              rw [ih _ hlen, ← RemoveExisting_of_findCert_own hf hown]
            · rw [if_neg (by simp [h1]), if_neg (fun hne => hne h2), if_pos h3,
                RemoveExisting_of_findCert_foreign hf (by simp [isOwnCert, h3])]
          · rw [if_neg (by simp [h1]), if_pos h2,
              RemoveExisting_of_findCert_foreign hf (by simp [isOwnCert, h2])]
        · have h1' : c.isSelfSigned = false := Bool.eq_false_iff.mpr h1
          rw [if_pos (by simp [h1']),
            RemoveExisting_of_findCert_foreign hf (by simp [isOwnCert, h1'])]
  exact H store.length store (Nat.le_refl _)

/-! ## Generate lemmas -/

theorem countMatching_append (n : String) (l₁ l₂ : List Cert) :
    countMatching n (l₁ ++ l₂) = countMatching n l₁ + countMatching n l₂ := by
  simp [countMatching, List.filter_append]

theorem countMatching_freshCert (n : String) (now : PRTime) (s : Nat) :
    countMatching n [freshCert n now s] = 1 := by
  simp [countMatching, List.filter_cons, matchesNickname_freshCert]

/-- Case analysis on `Generate`: either every provider step and the purge
succeeded and the result is `NS_OK` with exactly the fresh certificate
appended to the purged store and re-read into `mCert`; or the result is a
failure, the store is the input store or the purge's partial result, and
`mCert` is unchanged. -/
theorem Generate_spec (env : CryptoEnv) (n : String) (now : PRTime)
    (store : List Cert) (m : Option Cert) :
    (∃ s₁, RemoveExisting n store = (.NS_OK, s₁) ∧ findCert n s₁ = none ∧
      Generate env n now store m =
        (.NS_OK, s₁ ++ [freshCert n now env.serial],
          some (freshCert n now env.serial))) ∨
    ((Generate env n now store m).1.failed = true ∧
      ((Generate env n now store m).2.1 = store ∨
        (Generate env n now store m).2.1 = (RemoveExisting n store).2) ∧
      (Generate env n now store m).2.2 = m) := by
  obtain ⟨slotOk, subjectNameOk, curveOk, keyGenOk, spkiOk, requestOk, validityOk,
    randomOk, createCertOk, versionDataOk, arenaOk, setAlgOk, encodeOk, signOk,
    tempCertOk, importOk, serial, nssCode⟩ := env
  cases slotOk with
  | false => right; simp [Generate]
  | true =>
  rcases hr : RemoveExisting n store with ⟨rv1, s₁⟩
  cases hf : rv1.failed with
  | true => right; simp [Generate, hr, hf]
  | false =>
  cases subjectNameOk with
  | false => right; simp [Generate, hr, hf]
  | true =>
  cases curveOk with
  | false => right; simp [Generate, hr, hf]
  | true =>
  cases keyGenOk with
  | false => right; simp [Generate, hr, hf]
  | true =>
  cases spkiOk with
  | false => right; simp [Generate, hr, hf]
  | true =>
  cases requestOk with
  | false => right; simp [Generate, hr, hf]
  | true =>
  cases validityOk with
  | false => right; simp [Generate, hr, hf]
  | true =>
  cases randomOk with
  | false => right; simp [Generate, hr, hf]
  | true =>
  cases createCertOk with
  | false => right; simp [Generate, hr, hf]
  | true =>
  cases versionDataOk with
  | false => right; simp [Generate, hr, hf]
  | true =>
  cases arenaOk with
  | false => right; simp [Generate, hr, hf]
  | true =>
  cases setAlgOk with
  | false => right; simp [Generate, hr, hf]
  | true =>
  cases encodeOk with
  | false => right; simp [Generate, hr, hf]
  | true =>
  cases signOk with
  | false => right; simp [Generate, hr, hf]
  | true =>
  cases tempCertOk with
  | false => right; simp [Generate, hr, hf]
  | true =>
  cases importOk with
  | false => right; simp [Generate, hr, hf]
  | true =>
  left
  have hok : rv1 = .NS_OK := Nsresult.not_failed_iff.mp hf
  subst hok
  have h1 : (RemoveExisting n store).1 = .NS_OK := by rw [hr]
  have hfind : findCert n s₁ = none := by
    have h2 := RemoveExisting_ok_findCert h1
    rw [hr] at h2
    exact h2
  have hg : GetFromDB n (s₁ ++ [freshCert n now serial]) =
      (.NS_OK, some (freshCert n now serial)) := by
    unfold GetFromDB
    rw [findCert_append_of_none _ hfind,
      findCert_cons_of_match [] (matchesNickname_freshCert n now serial)]
  refine ⟨s₁, rfl, hfind, ?_⟩
  simp [Generate, hr, hg]

/-- `Generate` succeeds only in the canonical shape of `Generate_spec`. -/
theorem Generate_ok_spec {env : CryptoEnv} {n : String} {now : PRTime}
    {store : List Cert} {m : Option Cert}
    (h : (Generate env n now store m).1 = .NS_OK) :
    ∃ s₁, RemoveExisting n store = (.NS_OK, s₁) ∧ findCert n s₁ = none ∧
      Generate env n now store m =
        (.NS_OK, s₁ ++ [freshCert n now env.serial],
          some (freshCert n now env.serial)) := by
  rcases Generate_spec env n now store m with hS | ⟨hF, _, _⟩
  · exact hS
  · rw [h] at hF
    exact absurd hF (by simp [Nsresult.failed])

/-- `Generate` preserves "at most one certificate matching the
nickname". -/
theorem countMatching_Generate_le (env : CryptoEnv) (n : String) (now : PRTime)
    (store : List Cert) (m : Option Cert) (hle : countMatching n store ≤ 1) :
    countMatching n (Generate env n now store m).2.1 ≤ 1 := by
  rcases Generate_spec env n now store m with ⟨s₁, _, hfind, heq⟩ | ⟨_, hst, _⟩
  · rw [heq]
    simp only [countMatching_append, countMatching_freshCert]
    rw [countMatching_eq_zero_iff.mpr hfind]
  · rcases hst with h | h <;> rw [h]
    · exact hle
    · exact Nat.le_trans (countMatching_RemoveExisting_le n store) hle

/-! ## Validate lemmas -/

/-- `Validate` returns either `NS_OK` or `NS_ERROR_FAILURE`. -/
theorem Validate_eq_ok_or_failure (n : String) (now : PRTime) (c : Cert) :
    Validate n now c = .NS_OK ∨ Validate n now c = .NS_ERROR_FAILURE := by
  unfold Validate
  split
  · exact Or.inr rfl
  · split
    · exact Or.inr rfl
    · split
      · exact Or.inr rfl
      · split
        · exact Or.inr rfl
        · exact Or.inl rfl

/-- Characterization of a passing validation. -/
theorem Validate_ok_iff (n : String) (now : PRTime) (c : Cert) :
    Validate n now c = .NS_OK ↔
      (c.isSelfSigned = true ∧ c.subjectName = c.issuerName ∧
        c.subjectName = "CN=" ++ n ∧ c.notBefore ≤ now ∧
        now - oneDay ≤ c.notAfter) := by
  cases h1 : c.isSelfSigned with
  | false => simp [Validate, h1]
  | true =>
    unfold Validate
    rw [if_neg (by simp [h1])]
    by_cases h2 : c.subjectName = c.issuerName
    · rw [if_neg (fun hne => hne h2)]
      by_cases h3 : c.subjectName = "CN=" ++ n
      · rw [if_neg (fun hne => hne h3)]
        by_cases h4 : c.notBefore > now ∨ c.notAfter < now - oneDay
        · rw [if_pos h4]
          constructor
          · intro h
            exact Nsresult.noConfusion h
          · rintro ⟨-, -, -, h5, h6⟩
            exfalso
            rcases h4 with h4 | h4 <;> linarith
        · rw [if_neg h4]
          constructor
          · intro _
            push_neg at h4
            exact ⟨rfl, h2, h3, h4.1, h4.2⟩
          · intro _
            rfl
      · rw [if_pos h3]
        constructor
        · intro h
          exact Nsresult.noConfusion h
        · rintro ⟨-, -, h3', -, -⟩
          exact absurd h3' h3
    · rw [if_pos h2]
      constructor
      · intro h
        exact Nsresult.noConfusion h
      · rintro ⟨-, h2', -, -, -⟩
        exact absurd h2' h2

/-- A failing validation always reports the generic `NS_ERROR_FAILURE`. -/
theorem Validate_failed_eq {n : String} {now : PRTime} {c : Cert}
    (h : Validate n now c ≠ .NS_OK) : Validate n now c = .NS_ERROR_FAILURE := by
  rcases Validate_eq_ok_or_failure n now c with h1 | h1
  · exact absurd h1 h
  · exact h1

/-- One day of microseconds is positive. -/
theorem oneDay_pos : (0 : PRTime) < oneDay := by
  unfold oneDay
  norm_num

/-- A freshly generated certificate passes validation at its generation
time. -/
theorem Validate_freshCert (n : String) (now : PRTime) (s : Nat) :
    Validate n now (freshCert n now s) = .NS_OK := by
  have hpos := oneDay_pos
  rw [Validate_ok_iff]
  refine ⟨rfl, rfl, rfl, ?_, ?_⟩
  · show now - oneDay ≤ now
    linarith
  · show now - oneDay ≤ now + 365 * oneDay
    linarith

/-- A certificate the purge guard classifies as foreign never passes
validation. -/
theorem Validate_foreign_fails {n : String} {now : PRTime} {c : Cert}
    (hforeign : isOwnCert n c = false) :
    Validate n now c = .NS_ERROR_FAILURE := by
  apply Validate_failed_eq
  intro hok
  rw [Validate_ok_iff] at hok
  obtain ⟨h1, h2, h3, -, -⟩ := hok
  have h4 : ("CN=" ++ n) = c.subjectName := h3.symm
  have h5 : ("CN=" ++ n) = c.issuerName := h3.symm.trans h2
  unfold isOwnCert at hforeign
  rw [h1, ← h4, ← h5] at hforeign
  simp at hforeign

/-! ## CalculateResult case analysis -/

/-- Full case analysis of `LocalCertGetTask::CalculateResult`: either the
lookup found a valid certificate (returned as-is, no generation); or the
fallback `Generate` ran exactly once — triggered by an absent record
(`m0 = none`) or a failed validation (`m0 = some` found cert) — and the
run's outcome is that single `Generate`'s outcome. -/
theorem CalculateResult_cases (env : Nat → CryptoEnv) (n : String)
    (now : PRTime) (store : List Cert) :
    (∃ c, findCert n store = some c ∧ Validate n now c = .NS_OK ∧
      CalculateResult env n now store = ⟨.NS_OK, store, some c, 0⟩) ∨
    (∃ m0, (findCert n store = none ∧ m0 = none ∨
        (∃ c, findCert n store = some c ∧ (Validate n now c).failed = true ∧
          m0 = some c)) ∧
      ((∃ s₁, RemoveExisting n store = (.NS_OK, s₁) ∧ findCert n s₁ = none ∧
          CalculateResult env n now store =
            ⟨.NS_OK, s₁ ++ [freshCert n now (env 0).serial],
              some (freshCert n now (env 0).serial), 1⟩) ∨
        ((Generate (env 0) n now store m0).1.failed = true ∧
          CalculateResult env n now store =
            ⟨(Generate (env 0) n now store m0).1,
              (Generate (env 0) n now store m0).2.1,
              (Generate (env 0) n now store m0).2.2, 1⟩))) := by
  cases hfc : findCert n store with
  | some c =>
    have hdb : GetFromDB n store = (.NS_OK, some c) := by
      unfold GetFromDB
      rw [hfc]
    by_cases hv : Validate n now c = .NS_OK
    · left
      exact ⟨c, rfl, hv, by simp [CalculateResult, hdb, ValidateOpt, hv]⟩
    · have hvf : (Validate n now c).failed = true := Nsresult.failed_iff.mpr hv
      right
      refine ⟨some c, Or.inr ⟨c, rfl, hvf, rfl⟩, ?_⟩
      by_cases hgf : (Generate (env 0) n now store (some c)).1.failed
      · exact Or.inr ⟨hgf, by simp [CalculateResult, hdb, ValidateOpt, hvf, hgf]⟩
      · have hgok : (Generate (env 0) n now store (some c)).1 = .NS_OK :=
          Nsresult.not_failed_iff.mp (Bool.eq_false_iff.mpr hgf)
        obtain ⟨s₁, hr, hfind, heq⟩ := Generate_ok_spec hgok
        exact Or.inl ⟨s₁, hr, hfind,
          by simp [CalculateResult, hdb, ValidateOpt, hvf, heq]⟩
  | none =>
    have hdb : GetFromDB n store = (.NS_ERROR_FAILURE, none) := by
      unfold GetFromDB
      rw [hfc]
    right
    by_cases hgf : (Generate (env 0) n now store none).1.failed
    · exact ⟨none, Or.inl ⟨rfl, rfl⟩,
        Or.inr ⟨hgf, by simp [CalculateResult, hdb, hgf]⟩⟩
    · have hgok : (Generate (env 0) n now store none).1 = .NS_OK :=
        Nsresult.not_failed_iff.mp (Bool.eq_false_iff.mpr hgf)
      obtain ⟨s₁, hr, hfind, heq⟩ := Generate_ok_spec hgok
      refine ⟨none, Or.inl ⟨rfl, rfl⟩, Or.inl ⟨s₁, hr, hfind, ?_⟩⟩
      simp [CalculateResult, hdb, heq, ValidateOpt, Validate_freshCert]

/-- If the lookup finds a record that passes validation, the task returns
it with the store unchanged and zero `Generate` runs. -/
theorem CalculateResult_found_valid (env : Nat → CryptoEnv) (n : String)
    (now : PRTime) (store : List Cert) (c : Cert)
    (hfc : findCert n store = some c) (hv : Validate n now c = .NS_OK) :
    CalculateResult env n now store = ⟨.NS_OK, store, some c, 0⟩ := by
  rcases CalculateResult_cases env n now store with
    ⟨c', hfc', hv', heq⟩ | ⟨m0, hm0, hgen⟩
  · rw [hfc] at hfc'
    injection hfc' with hcc
    subst hcc
    exact heq
  · exfalso
    rcases hm0 with ⟨h1, -⟩ | ⟨c', h1, h2, -⟩
    · rw [hfc] at h1
      exact Option.noConfusion h1
    · rw [hfc] at h1
      injection h1 with hcc
      subst hcc
      rw [hv] at h2
      exact absurd h2 (by simp)

/-! ## Claim theorems -/

/-- C1: `CalculateResult` handles an absent record and a validation
failure identically, by calling `Generate`; `Generate` runs at most once
per run — exactly once iff the record is absent or fails validation — and
when the run fails, its result is that single `Generate` call's error. -/
theorem C1_single_fallback (env : Nat → CryptoEnv) (n : String) (now : PRTime)
    (store : List Cert) :
    (CalculateResult env n now store).genCount ≤ 1 ∧
    ((CalculateResult env n now store).genCount = 1 ↔
      (findCert n store = none ∨
        ∃ c, findCert n store = some c ∧ (Validate n now c).failed = true)) ∧
    ((CalculateResult env n now store).rv.failed = true →
      ∃ m0, (CalculateResult env n now store).rv =
          (Generate (env 0) n now store m0).1 ∧
        (Generate (env 0) n now store m0).1.failed = true) := by
  rcases CalculateResult_cases env n now store with
    ⟨c, hfc, hv, heq⟩ | ⟨m0, hm0, hgen⟩
  · rw [heq]
    refine ⟨by simp, ?_, ?_⟩
    · constructor
      · intro h01
        exact absurd h01 (by simp)
      · rintro (hnone | ⟨c', hfc', hcf⟩)
        · rw [hfc] at hnone
          exact Option.noConfusion hnone
        · rw [hfc] at hfc'
          injection hfc' with hcc
          subst hcc
          rw [hv] at hcf
          exact absurd hcf (by simp)
    · intro hfl
      exact absurd hfl (by simp)
  · have hRHS : findCert n store = none ∨
        ∃ c, findCert n store = some c ∧ (Validate n now c).failed = true := by
      rcases hm0 with ⟨h1, -⟩ | ⟨c, h1, h2, -⟩
      · exact Or.inl h1
      · exact Or.inr ⟨c, h1, h2⟩
    rcases hgen with ⟨s₁, hr, hfind, heq⟩ | ⟨hgf, heq⟩ <;> rw [heq]
    · refine ⟨by simp, ⟨fun _ => hRHS, fun _ => rfl⟩, ?_⟩
      intro hfl
      exact absurd hfl (by simp)
    · exact ⟨Nat.le_refl 1, ⟨fun _ => hRHS, fun _ => rfl⟩,
        fun _ => ⟨m0, rfl, hgf⟩⟩

/-- C9: when the lookup finds a record for the nickname and that record
passes validation, the run leaves the store completely unchanged — no
certificate deleted, nothing generated or imported (`genCount = 0`) —
and only returns the record it read. -/
theorem C9_frame_on_valid (env : Nat → CryptoEnv) (n : String) (now : PRTime)
    (store : List Cert) (c : Cert) (hfc : findCert n store = some c)
    (hv : Validate n now c = .NS_OK) :
    CalculateResult env n now store = ⟨.NS_OK, store, some c, 0⟩ :=
  CalculateResult_found_valid env n now store c hfc hv

/-- Witness for C9: a store holding one fresh certificate for `"x"`. -/
theorem C9_frame_on_valid_witness :
    CalculateResult (fun _ => allOkEnv) "x" 0 [freshCert "x" 0 7] =
      ⟨.NS_OK, [freshCert "x" 0 7], some (freshCert "x" 0 7), 0⟩ :=
  C9_frame_on_valid (fun _ => allOkEnv) "x" 0 [freshCert "x" 0 7]
    (freshCert "x" 0 7) (by decide) (by decide)

/-- C5: a second `GetOrCreate` run immediately after a successful one
finds the certificate the first run delivered, validates it, and returns
it without regenerating: same certificate identity, same store, zero
`Generate` runs. -/
theorem C5_idempotent (env1 env2 : Nat → CryptoEnv) (n : String)
    (now : PRTime) (store : List Cert)
    (h : (CalculateResult env1 n now store).rv = .NS_OK) :
    CalculateResult env2 n now ((CalculateResult env1 n now store).store) =
      ⟨.NS_OK, (CalculateResult env1 n now store).store,
        (CalculateResult env1 n now store).mCert, 0⟩ := by
  rcases CalculateResult_cases env1 n now store with
    ⟨c, hfc, hv, heq⟩ | ⟨m0, hm0, hgen⟩
  · rw [heq]
    exact CalculateResult_found_valid env2 n now store c hfc hv
  · rcases hgen with ⟨s₁, hr, hfind, heq⟩ | ⟨hgf, heq⟩
    · rw [heq]
      have hfc2 : findCert n (s₁ ++ [freshCert n now (env1 0).serial]) =
          some (freshCert n now (env1 0).serial) := by
        rw [findCert_append_of_none _ hfind]
        exact findCert_cons_of_match []
          (matchesNickname_freshCert n now (env1 0).serial)
      exact CalculateResult_found_valid env2 n now _ _ hfc2
        (Validate_freshCert n now (env1 0).serial)
    · exfalso
      rw [heq] at h
      have hok : (Generate (env1 0) n now store m0).1 = .NS_OK := h
      rw [hok] at hgf
      exact absurd hgf (by simp)

/-- Witness for C5: first run generates a fresh certificate in the empty
store; the second run returns it without regenerating. -/
theorem C5_idempotent_witness :
    (CalculateResult (fun _ => allOkEnv) "x" 0 []).rv = .NS_OK ∧
    CalculateResult (fun _ => allOkEnv) "x" 0
        ((CalculateResult (fun _ => allOkEnv) "x" 0 []).store) =
      ⟨.NS_OK, (CalculateResult (fun _ => allOkEnv) "x" 0 []).store,
        (CalculateResult (fun _ => allOkEnv) "x" 0 []).mCert, 0⟩ :=
  ⟨by decide, C5_idempotent (fun _ => allOkEnv) (fun _ => allOkEnv) "x" 0 []
    (by decide)⟩

/-- C2: when a foreign certificate — not self-signed, or with
subject/issuer differing from `"CN=" + n` — is stored under nickname `n`,
the purge path fails with `NS_ERROR_UNEXPECTED` leaving it in the store,
and a `GetOrCreate` run that looks it up (with the key slot available so
its purge is reached) fails with the same error without deleting it. -/
theorem C2_foreign_never_deleted (env : Nat → CryptoEnv) (n : String)
    (now : PRTime) (store : List Cert) (c : Cert)
    (hmem : c ∈ store) (hnick : matchesNickname n c = true)
    (hforeign : isOwnCert n c = false) (hslot : (env 0).slotOk = true)
    (hfc : findCert n store = some c) :
    ((RemoveExisting n store).1 = .NS_ERROR_UNEXPECTED ∧
      c ∈ (RemoveExisting n store).2) ∧
    ((CalculateResult env n now store).rv = .NS_ERROR_UNEXPECTED ∧
      c ∈ (CalculateResult env n now store).store) := by
  have hpurge := RemoveExisting_foreign hmem hnick hforeign
  refine ⟨hpurge, ?_⟩
  have hv : Validate n now c = .NS_ERROR_FAILURE := Validate_foreign_fails hforeign
  have hgen : Generate (env 0) n now store (some c) =
      (.NS_ERROR_UNEXPECTED, (RemoveExisting n store).2, some c) := by
    have h1 := hpurge.1
    simp [Generate, hslot, h1]
  rcases CalculateResult_cases env n now store with
    ⟨c', hfc', hv', -⟩ | ⟨m0, hm0, hgen2⟩
  · exfalso
    rw [hfc] at hfc'
    injection hfc' with hcc
    subst hcc
    rw [hv] at hv'
    exact Nsresult.noConfusion hv'
  · rcases hm0 with ⟨h1, -⟩ | ⟨c', h1, -, hm0s⟩
    · exfalso
      rw [hfc] at h1
      exact Option.noConfusion h1
    · rw [hfc] at h1
      injection h1 with hcc
      subst hcc
      subst hm0s
      rcases hgen2 with ⟨s₁, hr, -, -⟩ | ⟨-, heq⟩
      · exfalso
        have h2 := hpurge.1
        rw [hr] at h2
        exact Nsresult.noConfusion h2
      · rw [heq]
        constructor
        · show (Generate (env 0) n now store (some c)).1 = .NS_ERROR_UNEXPECTED
          rw [hgen]
        · show c ∈ (Generate (env 0) n now store (some c)).2.1
          rw [hgen]
          exact hpurge.2

/-- Witness for C2: a single non-self-signed certificate stored under
`"x"` with the expected subject/issuer strings. -/
theorem C2_foreign_never_deleted_witness :
    ((RemoveExisting "x" [⟨"x", "CN=x", "CN=x", false, 0, 1000, 5⟩]).1 =
        .NS_ERROR_UNEXPECTED ∧
      (⟨"x", "CN=x", "CN=x", false, 0, 1000, 5⟩ : Cert) ∈
        (RemoveExisting "x" [⟨"x", "CN=x", "CN=x", false, 0, 1000, 5⟩]).2) ∧
    ((CalculateResult (fun _ => allOkEnv) "x" 0
          [⟨"x", "CN=x", "CN=x", false, 0, 1000, 5⟩]).rv =
        .NS_ERROR_UNEXPECTED ∧
      (⟨"x", "CN=x", "CN=x", false, 0, 1000, 5⟩ : Cert) ∈
        (CalculateResult (fun _ => allOkEnv) "x" 0
          [⟨"x", "CN=x", "CN=x", false, 0, 1000, 5⟩]).store) :=
  C2_foreign_never_deleted (fun _ => allOkEnv) "x" 0
    [⟨"x", "CN=x", "CN=x", false, 0, 1000, 5⟩]
    ⟨"x", "CN=x", "CN=x", false, 0, 1000, 5⟩
    (by decide) (by decide) (by decide) (by decide) (by decide)

/-- C3: starting from a store holding at most one certificate matching
nickname `n`, any finite sequence of sequentially executed
`GetOrCreate`/`Remove` tasks on `n` leaves at most one certificate
matching `n` in the store. -/
theorem C3_at_most_one (n : String) (ops : List LocalOp) (store : List Cert)
    (h : countMatching n store ≤ 1) :
    countMatching n (runOps n ops store) ≤ 1 := by
  induction ops generalizing store with
  | nil => exact h
  | cons op ops ih =>
    refine ih (runOp n store op) ?_
    cases op with
    | remove => exact Nat.le_trans (countMatching_RemoveExisting_le n store) h
    | getOrCreate env now =>
      show countMatching n (CalculateResult env n now store).store ≤ 1
      rcases CalculateResult_cases env n now store with
        ⟨c, -, -, heq⟩ | ⟨m0, -, hgen⟩
      · rw [heq]
        exact h
      · rcases hgen with ⟨s₁, hr, hfind, heq⟩ | ⟨-, heq⟩
        · rw [heq]
          show countMatching n (s₁ ++ [freshCert n now (env 0).serial]) ≤ 1
          rw [countMatching_append, countMatching_eq_zero_iff.mpr hfind,
            countMatching_freshCert]
        · rw [heq]
          exact countMatching_Generate_le (env 0) n now store m0 h

/-- Witness for C3: generate into the empty store, then remove, then
generate again. -/
theorem C3_at_most_one_witness :
    countMatching "x" [] ≤ 1 ∧
    countMatching "x" (runOps "x"
      [LocalOp.getOrCreate (fun _ => allOkEnv) 0, LocalOp.remove,
        LocalOp.getOrCreate (fun _ => allOkEnv) oneDay] []) ≤ 1 :=
  ⟨by decide,
    C3_at_most_one "x"
      [LocalOp.getOrCreate (fun _ => allOkEnv) 0, LocalOp.remove,
        LocalOp.getOrCreate (fun _ => allOkEnv) oneDay] [] (by decide)⟩

/-- C4: given the structural conditions, `Validate`'s time check fails
precisely when `notBefore > now` or `notAfter < now - oneDay`; a
certificate with `notAfter = now - oneDay` exactly is accepted (when
`notBefore ≤ now`), and one with `notAfter = now - oneDay` minus one
second (`1000000` microseconds) is rejected. -/
theorem C4_validity_boundary (n : String) (now : PRTime) (c : Cert)
    (h1 : c.isSelfSigned = true) (h2 : c.subjectName = "CN=" ++ n)
    (h3 : c.issuerName = "CN=" ++ n) :
    (Validate n now c = .NS_OK ↔
      ¬(c.notBefore > now ∨ c.notAfter < now - oneDay)) ∧
    (c.notAfter = now - oneDay → c.notBefore ≤ now →
      Validate n now c = .NS_OK) ∧
    (c.notAfter = now - oneDay - 1000000 →
      Validate n now c = .NS_ERROR_FAILURE) := by
  have hsub : c.subjectName = c.issuerName := by rw [h2, h3]
  have hiff := Validate_ok_iff n now c
  refine ⟨?_, ?_, ?_⟩
  · rw [hiff]
    constructor
    · rintro ⟨-, -, -, h5, h6⟩
      rintro (h4 | h4) <;> linarith
    · intro h4
      push_neg at h4
      exact ⟨h1, hsub, h2, h4.1, h4.2⟩
  · intro hna hnb
    rw [hiff]
    exact ⟨h1, hsub, h2, hnb, le_of_eq hna.symm⟩
  · intro hna
    apply Validate_failed_eq
    intro hok
    rw [hiff] at hok
    obtain ⟨-, -, -, -, h6⟩ := hok
    rw [hna] at h6
    have hpos := oneDay_pos
    linarith

/-- Witness for C4 on a concrete record. -/
theorem C4_validity_boundary_witness :
    (Validate "x" 10 ⟨"x", "CN=x", "CN=x", true, 0, 42, 0⟩ = .NS_OK ↔
      ¬((⟨"x", "CN=x", "CN=x", true, 0, 42, 0⟩ : Cert).notBefore > 10 ∨
        (⟨"x", "CN=x", "CN=x", true, 0, 42, 0⟩ : Cert).notAfter <
          10 - oneDay)) ∧
    ((⟨"x", "CN=x", "CN=x", true, 0, 42, 0⟩ : Cert).notAfter = 10 - oneDay →
      (⟨"x", "CN=x", "CN=x", true, 0, 42, 0⟩ : Cert).notBefore ≤ 10 →
      Validate "x" 10 ⟨"x", "CN=x", "CN=x", true, 0, 42, 0⟩ = .NS_OK) ∧
    ((⟨"x", "CN=x", "CN=x", true, 0, 42, 0⟩ : Cert).notAfter =
        10 - oneDay - 1000000 →
      Validate "x" 10 ⟨"x", "CN=x", "CN=x", true, 0, 42, 0⟩ =
        .NS_ERROR_FAILURE) :=
  C4_validity_boundary "x" 10 ⟨"x", "CN=x", "CN=x", true, 0, 42, 0⟩
    (by decide) (by decide) (by decide)

/-- C6: an empty nickname or a null callback is rejected by both entry
points with an immediate synchronous failure — `NS_ERROR_INVALID_ARG` for
the empty nickname, `NS_ERROR_INVALID_POINTER` for the null callback —
with no task dispatched, no login or store interaction, and no callback
invocation. -/
theorem C6_invalid_args (nick : String) (cbNull : Bool)
    (login dispatch : Nsresult) (h : nick.isEmpty = true ∨ cbNull = true) :
    GetOrCreateCert nick cbNull login dispatch =
        RemoveCert nick cbNull login dispatch ∧
    (GetOrCreateCert nick cbNull login dispatch).taskDispatched = false ∧
    (GetOrCreateCert nick cbNull login dispatch).loginAttempted = false ∧
    (GetOrCreateCert nick cbNull login dispatch).callbackStatus = none ∧
    (GetOrCreateCert nick cbNull login dispatch).ret.failed = true ∧
    (nick.isEmpty = true →
      (GetOrCreateCert nick cbNull login dispatch).ret =
        .NS_ERROR_INVALID_ARG) ∧
    (nick.isEmpty = false →
      (GetOrCreateCert nick cbNull login dispatch).ret =
        .NS_ERROR_INVALID_POINTER) := by
  cases he : nick.isEmpty with
  | true => simp [GetOrCreateCert, RemoveCert, he]
  | false =>
    rcases h with h | h
    · rw [he] at h
      exact Bool.noConfusion h
    · simp [GetOrCreateCert, RemoveCert, he, h]

/-- Witness for C6: the empty nickname. -/
theorem C6_invalid_args_witness :
    GetOrCreateCert "" false .NS_OK .NS_OK = RemoveCert "" false .NS_OK .NS_OK ∧
    (GetOrCreateCert "" false .NS_OK .NS_OK).taskDispatched = false ∧
    (GetOrCreateCert "" false .NS_OK .NS_OK).loginAttempted = false ∧
    (GetOrCreateCert "" false .NS_OK .NS_OK).callbackStatus = none ∧
    (GetOrCreateCert "" false .NS_OK .NS_OK).ret.failed = true ∧
    (("" : String).isEmpty = true →
      (GetOrCreateCert "" false .NS_OK .NS_OK).ret = .NS_ERROR_INVALID_ARG) ∧
    (("" : String).isEmpty = false →
      (GetOrCreateCert "" false .NS_OK .NS_OK).ret =
        .NS_ERROR_INVALID_POINTER) :=
  C6_invalid_args "" false .NS_OK .NS_OK (Or.inl (by decide))

/-- C7: when the pre-flight key-slot login fails, both entry points invoke
the callback synchronously with exactly that failure and dispatch no
task. -/
theorem C7_login_failure_short_circuits (nick : String) (cbNull : Bool)
    (login dispatch : Nsresult) (hn : nick.isEmpty = false)
    (hcb : cbNull = false) (hl : login.failed = true) :
    (GetOrCreateCert nick cbNull login dispatch).callbackStatus = some login ∧
    (GetOrCreateCert nick cbNull login dispatch).taskDispatched = false ∧
    (RemoveCert nick cbNull login dispatch).callbackStatus = some login ∧
    (RemoveCert nick cbNull login dispatch).taskDispatched = false := by
  simp [GetOrCreateCert, RemoveCert, hn, hcb, hl]

/-- Witness for C7: a failing login outcome. -/
theorem C7_login_failure_short_circuits_witness :
    (GetOrCreateCert "x" false .NS_ERROR_FAILURE .NS_OK).callbackStatus =
        some .NS_ERROR_FAILURE ∧
    (GetOrCreateCert "x" false .NS_ERROR_FAILURE .NS_OK).taskDispatched =
        false ∧
    (RemoveCert "x" false .NS_ERROR_FAILURE .NS_OK).callbackStatus =
        some .NS_ERROR_FAILURE ∧
    (RemoveCert "x" false .NS_ERROR_FAILURE .NS_OK).taskDispatched = false :=
  C7_login_failure_short_circuits "x" false .NS_ERROR_FAILURE .NS_OK
    (by decide) (by decide) (by decide)

/-- C10: in the login-failure case both entry points return `NS_OK` from
the synchronous call itself after delivering the failure to the callback:
the authentication failure is observable only via the callback. -/
theorem C10_login_failure_returns_ok (nick : String) (cbNull : Bool)
    (login dispatch : Nsresult) (hn : nick.isEmpty = false)
    (hcb : cbNull = false) (hl : login.failed = true) :
    (GetOrCreateCert nick cbNull login dispatch).ret = .NS_OK ∧
    (GetOrCreateCert nick cbNull login dispatch).callbackStatus = some login ∧
    (RemoveCert nick cbNull login dispatch).ret = .NS_OK ∧
    (RemoveCert nick cbNull login dispatch).callbackStatus = some login := by
  simp [GetOrCreateCert, RemoveCert, hn, hcb, hl]

/-- Witness for C10: a failing login outcome. -/
theorem C10_login_failure_returns_ok_witness :
    (GetOrCreateCert "x" false .NS_ERROR_FAILURE .NS_OK).ret = .NS_OK ∧
    (GetOrCreateCert "x" false .NS_ERROR_FAILURE .NS_OK).callbackStatus =
        some .NS_ERROR_FAILURE ∧
    (RemoveCert "x" false .NS_ERROR_FAILURE .NS_OK).ret = .NS_OK ∧
    (RemoveCert "x" false .NS_ERROR_FAILURE .NS_OK).callbackStatus =
        some .NS_ERROR_FAILURE :=
  C10_login_failure_returns_ok "x" false .NS_ERROR_FAILURE .NS_OK
    (by decide) (by decide) (by decide)

/-- C8 counterexample: a record failing only the self-signed condition
and a record failing only the validity-window condition produce the
*same* error value (`NS_ERROR_FAILURE`): `Validate`'s failures do not
carry four distinguishable kinds. -/
theorem C8_counterexample :
    Validate "a" (2 * oneDay)
        ⟨"a", "CN=a", "CN=a", false, 0, 400 * oneDay, 1⟩ =
      Validate "a" (2 * oneDay) ⟨"a", "CN=a", "CN=a", true, 0, 0, 2⟩ ∧
    Validate "a" (2 * oneDay)
        ⟨"a", "CN=a", "CN=a", false, 0, 400 * oneDay, 1⟩ =
      .NS_ERROR_FAILURE ∧
    (⟨"a", "CN=a", "CN=a", false, 0, 400 * oneDay, 1⟩ : Cert).isSelfSigned =
      false ∧
    (⟨"a", "CN=a", "CN=a", true, 0, 0, 2⟩ : Cert).isSelfSigned = true ∧
    (⟨"a", "CN=a", "CN=a", true, 0, 0, 2⟩ : Cert).subjectName =
      (⟨"a", "CN=a", "CN=a", true, 0, 0, 2⟩ : Cert).issuerName ∧
    (⟨"a", "CN=a", "CN=a", true, 0, 0, 2⟩ : Cert).notAfter <
      2 * oneDay - oneDay := by
  decide

/-- C8 amended: when `Validate` fails it always returns the single
generic code `NS_ERROR_FAILURE` — one of the four conditions
(self-signed, subject = issuer, subject = `"CN=" + nickname`, validity
window) is violated, but which one is not recoverable from the result. -/
theorem C8_amended (n : String) (now : PRTime) (c : Cert)
    (h : Validate n now c ≠ .NS_OK) :
    Validate n now c = .NS_ERROR_FAILURE ∧
    ¬(c.isSelfSigned = true ∧ c.subjectName = c.issuerName ∧
      c.subjectName = "CN=" ++ n ∧ c.notBefore ≤ now ∧
      now - oneDay ≤ c.notAfter) := by
  refine ⟨Validate_failed_eq h, ?_⟩
  intro hcon
  exact h ((Validate_ok_iff n now c).mpr hcon)

/-- Witness for the amended C8 on a concrete failing record. -/
theorem C8_amended_witness :
    Validate "a" 0 ⟨"a", "CN=a", "CN=a", false, 0, 0, 0⟩ =
        .NS_ERROR_FAILURE ∧
    ¬((⟨"a", "CN=a", "CN=a", false, 0, 0, 0⟩ : Cert).isSelfSigned = true ∧
      (⟨"a", "CN=a", "CN=a", false, 0, 0, 0⟩ : Cert).subjectName =
        (⟨"a", "CN=a", "CN=a", false, 0, 0, 0⟩ : Cert).issuerName ∧
      (⟨"a", "CN=a", "CN=a", false, 0, 0, 0⟩ : Cert).subjectName =
        "CN=" ++ "a" ∧
      (⟨"a", "CN=a", "CN=a", false, 0, 0, 0⟩ : Cert).notBefore ≤ 0 ∧
      (0 : PRTime) - oneDay ≤
        (⟨"a", "CN=a", "CN=a", false, 0, 0, 0⟩ : Cert).notAfter) :=
  C8_amended "a" 0 ⟨"a", "CN=a", "CN=a", false, 0, 0, 0⟩ (by decide)

end LocalCertService
